import Mathlib

/-!
Verification development for the log-processing system's structured-logging
core: a shallow embedding of the `logger` package (log levels, the immutable
field-chainable `Logger`, context propagation, caller resolution) and of the
HTTP middleware (`responseWriter`, the Logging stage `Handler`, and
`RateLimitMiddleware`), together with theorems settling the frozen claims
about them.

Modelling conventions:
- Go maps (`map[string]interface{}`, `map[string]int`) are modelled as
  association lists with unique-key insertion (`insertGo`, `incrCount`);
  key-iteration order of a Go map is unspecified, and only the key-to-value
  mapping (via `lookupGo` / `getCount`) is ever relied on.
- `interface{}` field values are modelled by `GoValue` (string / int / bool),
  which covers every value the repository ever stores in a field map.
- `time.Time` is external library state; a timestamp is modelled by its two
  renderings used in the source (RFC3339 for JSON, "2006-01-02 15:04:05" for
  text), carried in `GoTime`.
- An `io.Writer` sink is modelled by the list of write calls it receives;
  emit methods return that list. The Go writer identity is an opaque `Nat`.
- `runtime.Caller` is external; its possible outcomes are reified in
  `CallerProbe` and threaded into the emit methods as a parameter.
-/

namespace LogSys

/-- Log levels, `DEBUG LogLevel = iota` through `FATAL` in the source. -/
inductive LogLevel
  | DEBUG
  | INFO
  | WARN
  | ERROR
  | FATAL
deriving DecidableEq, Repr

/-- The underlying Go `int` of a `LogLevel` (its `iota` value). -/
def LogLevel.toGoInt : LogLevel → Nat
  | .DEBUG => 0
  | .INFO => 1
  | .WARN => 2
  | .ERROR => 3
  | .FATAL => 4

/-- `LogLevel.String()` from the source. -/
def LogLevel.string : LogLevel → String
  | .DEBUG => "DEBUG"
  | .INFO => "INFO"
  | .WARN => "WARN"
  | .ERROR => "ERROR"
  | .FATAL => "FATAL"

/-- A Go `interface{}` value as used in this repository's field maps:
only strings, integers and booleans are ever stored. -/
inductive GoValue
  | vStr (s : String)
  | vInt (n : Int)
  | vBool (b : Bool)
deriving DecidableEq, Repr

/-- A Go `map[string]interface{}` modelled as an association list with
unique keys maintained by `insertGo`. -/
abbrev FieldMap := List (String × GoValue)

/-- Go map assignment `m[k] = v`: replace the binding of `k` if present,
otherwise append a fresh binding. -/
def insertGo : FieldMap → String → GoValue → FieldMap
  | [], k, v => [(k, v)]
  | (k', v') :: rest, k, v =>
      if k' = k then (k, v) :: rest else (k', v') :: insertGo rest k v

/-- Go map read `v, ok := m[k]`: `some v` when the key is bound. -/
def lookupGo : FieldMap → String → Option GoValue
  | [], _ => none
  | (k', v) :: rest, k => if k' = k then some v else lookupGo rest k

/-- The Go copy loop `for k, v := range src { dst[k] = v }`. -/
def copyRange (dst src : FieldMap) : FieldMap :=
  src.foldl (fun m p => insertGo m p.1 p.2) dst

/-- A `time.Time` instant, modelled by the two renderings the source uses:
`RFC3339` (JSON encoding of `time.Time`) and the text-format layout
`2006-01-02 15:04:05`. -/
structure GoTime where
  rfc3339 : String
  textFmt : String
deriving DecidableEq, Repr

/-- `LogEntry` from the source: one structured log record. Optional string
fields use the Go zero value `""` for "absent" exactly as the source does;
`Fields` uses `[]` for Go's `nil`/empty map (the source nils out an empty
map before encoding, and both encode identically under `omitempty`). -/
structure LogEntry where
  Timestamp : GoTime
  Level : String
  Message : String
  Service : String
  Component : String
  TraceID : String
  UserID : String
  RequestID : String
  File : String
  Line : Int
  Function : String
  Duration : Option Int
  Error : String
  Fields : FieldMap
  Tags : List String
deriving DecidableEq, Repr

/-- JSON string escaping (quote and backslash; the repository's messages and
keys contain no control characters). -/
def jsonEscape (s : String) : String :=
  String.join (s.toList.map (fun c =>
    if c = '"' then "\\\"" else if c = '\\' then "\\\\" else String.mk [c]))

/-- A JSON string literal. -/
def jsonStr (s : String) : String := "\"" ++ jsonEscape s ++ "\""

/-- JSON encoding of a `GoValue`. -/
def encodeGoValue : GoValue → String
  | .vStr s => jsonStr s
  | .vInt n => toString n
  | .vBool b => if b then "true" else "false"

/-- JSON encoding of a field map (`encoding/json` on `map[string]interface{}`;
entry order is taken as the list order of the model). -/
def encodeFields (m : FieldMap) : String :=
  "\x7b" ++ String.intercalate "," (m.map (fun p => jsonStr p.1 ++ ":" ++ encodeGoValue p.2)) ++ "\x7d"

/-- JSON encoding of a tag list. -/
def encodeTags (tags : List String) : String :=
  "[" ++ String.intercalate "," (tags.map jsonStr) ++ "]"

/-- `json.Marshal` on a `LogEntry`: fields in struct order, honouring every
`omitempty` tag of the source. For the value types this repository stores,
marshalling never fails, so it is total here (the source's marshal-error
fallback line is therefore unreachable in the model). -/
def marshalEntry (e : LogEntry) : String :=
  "\x7b" ++ String.intercalate ","
    ([jsonStr "timestamp" ++ ":" ++ jsonStr e.Timestamp.rfc3339,
      jsonStr "level" ++ ":" ++ jsonStr e.Level,
      jsonStr "message" ++ ":" ++ jsonStr e.Message,
      jsonStr "service" ++ ":" ++ jsonStr e.Service,
      jsonStr "component" ++ ":" ++ jsonStr e.Component]
     ++ (if e.TraceID = "" then [] else [jsonStr "trace_id" ++ ":" ++ jsonStr e.TraceID])
     ++ (if e.UserID = "" then [] else [jsonStr "user_id" ++ ":" ++ jsonStr e.UserID])
     ++ (if e.RequestID = "" then [] else [jsonStr "request_id" ++ ":" ++ jsonStr e.RequestID])
     ++ [jsonStr "file" ++ ":" ++ jsonStr e.File,
         jsonStr "line" ++ ":" ++ toString e.Line,
         jsonStr "function" ++ ":" ++ jsonStr e.Function]
     ++ (match e.Duration with | none => [] | some d => [jsonStr "duration" ++ ":" ++ toString d])
     ++ (if e.Error = "" then [] else [jsonStr "error" ++ ":" ++ jsonStr e.Error])
     ++ (match e.Fields with | [] => [] | fs => [jsonStr "fields" ++ ":" ++ encodeFields fs])
     ++ (match e.Tags with | [] => [] | ts => [jsonStr "tags" ++ ":" ++ encodeTags ts]))
  ++ "\x7d"

/-- Output formats, `JSON LogFormat = iota`, `TEXT`. -/
inductive LogFormat
  | JSON
  | TEXT
deriving DecidableEq, Repr

/-- The `Logger` struct. `output` is the opaque identity of the `io.Writer`
the logger writes to. -/
structure Logger where
  level : LogLevel
  service : String
  component : String
  output : Nat
  format : LogFormat
  fields : FieldMap
deriving DecidableEq, Repr

/-- `Logger.WithFields`: builds a fresh `Logger` copying every configuration
field, copies the receiver's fields into a fresh empty map, then adds the
supplied fields (overriding equal keys). The receiver is a pure value here;
the source's discipline of writing only into the fresh map is mirrored by
constructing the new field map from `[]`. -/
def Logger.WithFields (l : Logger) (fields : FieldMap) : Logger :=
  { level := l.level
    service := l.service
    component := l.component
    output := l.output
    format := l.format
    fields := copyRange (copyRange [] l.fields) fields }

/-- `Logger.WithField`. -/
def Logger.WithField (l : Logger) (key : String) (value : GoValue) : Logger :=
  l.WithFields [(key, value)]

/-- `Logger.WithError`: a Go `error` is `Option String` (its message);
`nil` returns the receiver unchanged. -/
def Logger.WithError (l : Logger) (err : Option String) : Logger :=
  match err with
  | some msg => l.WithField "error" (.vStr msg)
  | none => l

/-- `Logger.WithDuration`: `duration.String()` is external formatting, so the
rendered duration string is the parameter. -/
def Logger.WithDuration (l : Logger) (durationStr : String) : Logger :=
  l.WithField "duration" (.vStr durationStr)

/-- `Logger.WithComponent`: shallow struct copy with only `component`
replaced. -/
def Logger.WithComponent (l : Logger) (component : String) : Logger :=
  { l with component := component }

/-- A `context.Context` restricted to the three correlation keys the source
defines (`trace_id`, `user_id`, `request_id`); `none` models an unset key. -/
structure GoContext where
  traceID : Option String
  userID : Option String
  requestID : Option String
deriving DecidableEq, Repr

/-- `context.Background()`: no correlation values set. -/
def backgroundContext : GoContext := ⟨none, none, none⟩

/-- `getFromContext`: a set string value is returned as-is, an unset key
yields `""`. -/
def getFromContext : Option String → String
  | some s => s
  | none => ""

/-- `WithTraceID`. -/
def WithTraceID (ctx : GoContext) (traceID : String) : GoContext :=
  { ctx with traceID := some traceID }

/-- `WithUserID`. -/
def WithUserID (ctx : GoContext) (userID : String) : GoContext :=
  { ctx with userID := some userID }

/-- `WithRequestID`. -/
def WithRequestID (ctx : GoContext) (requestID : String) : GoContext :=
  { ctx with requestID := some requestID }

/-- `GetTraceID`. -/
def GetTraceID (ctx : GoContext) : String := getFromContext ctx.traceID

/-- `GetUserID`. -/
def GetUserID (ctx : GoContext) : String := getFromContext ctx.userID

/-- `GetRequestID`. -/
def GetRequestID (ctx : GoContext) : String := getFromContext ctx.requestID

/-- The possible outcomes of the external `runtime.Caller(3)` probe:
`fail` is `ok == false`; `frame` carries the full file path, the line, and
`runtime.FuncForPC`'s function name (`none` when `FuncForPC` returns nil). -/
inductive CallerProbe
  | fail
  | frame (fullFile : String) (line : Int) (fn : Option String)
deriving DecidableEq, Repr

/-- `filepath.Base`: empty path gives ".", trailing separators are dropped,
then everything up to the last separator is dropped; an all-separator path
gives "/". -/
def filepathBase (path : String) : String :=
  if path = "" then "."
  else
    if (path.toList.reverse.dropWhile (fun c => c = '/')) = [] then "/"
    else
      String.mk ((path.toList.reverse.dropWhile (fun c => c = '/')).takeWhile
        (fun c => decide (c ≠ '/'))).reverse

/-- `getCaller` from the source: sentinel triple
`("unknown", 0, "unknown")` when `runtime.Caller` fails; otherwise the
base names of the file and (when resolvable) the function. -/
def getCaller : CallerProbe → String × Int × String
  | .fail => ("unknown", 0, "unknown")
  | .frame fullFile line fn =>
      match fn with
      | some name => (filepathBase fullFile, line, filepathBase name)
      | none => (filepathBase fullFile, line, "unknown")

/-- The record `Logger.log` constructs, or `none` when the call is filtered
by `level < l.level` — the comparison is the first thing the function does,
before caller resolution, record construction, or encoding. -/
def Logger.logRecord (l : Logger) (probe : CallerProbe) (now : GoTime)
    (level : LogLevel) (message : String) (extraFields : Option FieldMap) :
    Option LogEntry :=
  if level.toGoInt < l.level.toGoInt then none
  else
    some
      { Timestamp := now
        Level := level.string
        Message := message
        Service := l.service
        Component := l.component
        TraceID := ""
        UserID := ""
        RequestID := ""
        File := (getCaller probe).1
        Line := (getCaller probe).2.1
        Function := (getCaller probe).2.2
        Duration := none
        Error := ""
        Fields := copyRange (copyRange [] l.fields) (extraFields.getD [])
        Tags := [] }

/-- The record `Logger.logWithContext` constructs: as `logRecord`, but the
non-empty correlation identifiers of the scope are copied into the record
(an absent identifier reads back as `""`, which is exactly the record's
initial zero value, so the source's conditional copies amount to direct
assignment). -/
def Logger.logWithContextRecord (l : Logger) (ctx : GoContext)
    (probe : CallerProbe) (now : GoTime) (level : LogLevel) (message : String)
    (extraFields : Option FieldMap) : Option LogEntry :=
  if level.toGoInt < l.level.toGoInt then none
  else
    some
      { Timestamp := now
        Level := level.string
        Message := message
        Service := l.service
        Component := l.component
        TraceID := GetTraceID ctx
        UserID := GetUserID ctx
        RequestID := GetRequestID ctx
        File := (getCaller probe).1
        Line := (getCaller probe).2.1
        Function := (getCaller probe).2.2
        Duration := none
        Error := ""
        Fields := copyRange (copyRange [] l.fields) (extraFields.getD [])
        Tags := [] }

/-- `Logger.formatTextEntry`. -/
def Logger.formatTextEntry (_l : Logger) (e : LogEntry) : String :=
  (fun base4 =>
    match e.Fields with
    | [] => base4
    | fs => base4 ++ " fields=" ++ encodeFields fs)
  ((fun base3 => if e.UserID = "" then base3 else base3 ++ " [user=" ++ e.UserID ++ "]")
   ((fun base2 => if e.RequestID = "" then base2 else base2 ++ " [request=" ++ e.RequestID ++ "]")
    ((fun base1 => if e.TraceID = "" then base1 else base1 ++ " [trace=" ++ e.TraceID ++ "]")
     ("[" ++ e.Timestamp.textFmt ++ "] " ++ e.Level ++ " [" ++ e.Service ++ "/"
      ++ e.Component ++ "] " ++ e.File ++ ":" ++ toString e.Line ++ " "
      ++ e.Function ++ " - " ++ e.Message))))

/-- `Logger.writeEntry`: formats the record per the configured format and
performs exactly one `fmt.Fprintln` on the sink — one write, holding the
formatted record plus the terminating newline. The result is the list of
writes the sink receives. -/
def Logger.writeEntry (l : Logger) (entry : LogEntry) : List String :=
  match l.format with
  | .JSON => [marshalEntry entry ++ "\n"]
  | .TEXT => [l.formatTextEntry entry ++ "\n"]

/-- `Logger.log`: the writes the sink receives for one emit call. -/
def Logger.log (l : Logger) (probe : CallerProbe) (now : GoTime)
    (level : LogLevel) (message : String) (extraFields : Option FieldMap) :
    List String :=
  match l.logRecord probe now level message extraFields with
  | none => []
  | some entry => l.writeEntry entry

/-- `Logger.logWithContext`: the writes for one scope-aware emit call. -/
def Logger.logWithContext (l : Logger) (ctx : GoContext) (probe : CallerProbe)
    (now : GoTime) (level : LogLevel) (message : String)
    (extraFields : Option FieldMap) : List String :=
  match l.logWithContextRecord ctx probe now level message extraFields with
  | none => []
  | some entry => l.writeEntry entry

/-- `Logger.Debug`. -/
def Logger.Debug (l : Logger) (probe : CallerProbe) (now : GoTime)
    (message : String) : List String :=
  l.log probe now .DEBUG message none

/-- `Logger.Debugf`: `fmt.Sprintf` is external formatting, so the formatted
message is the parameter. -/
def Logger.Debugf (l : Logger) (probe : CallerProbe) (now : GoTime)
    (formatted : String) : List String :=
  l.log probe now .DEBUG formatted none

/-- `Logger.Info`. -/
def Logger.Info (l : Logger) (probe : CallerProbe) (now : GoTime)
    (message : String) : List String :=
  l.log probe now .INFO message none

/-- `Logger.Infof`. -/
def Logger.Infof (l : Logger) (probe : CallerProbe) (now : GoTime)
    (formatted : String) : List String :=
  l.log probe now .INFO formatted none

/-- `Logger.Warn`. -/
def Logger.Warn (l : Logger) (probe : CallerProbe) (now : GoTime)
    (message : String) : List String :=
  l.log probe now .WARN message none

/-- `Logger.Warnf`. -/
def Logger.Warnf (l : Logger) (probe : CallerProbe) (now : GoTime)
    (formatted : String) : List String :=
  l.log probe now .WARN formatted none

/-- `Logger.Error`. -/
def Logger.Error (l : Logger) (probe : CallerProbe) (now : GoTime)
    (message : String) : List String :=
  l.log probe now .ERROR message none

/-- `Logger.Errorf`. -/
def Logger.Errorf (l : Logger) (probe : CallerProbe) (now : GoTime)
    (formatted : String) : List String :=
  l.log probe now .ERROR formatted none

/-- `Logger.Fatal`: logs at FATAL, then `os.Exit(1)`; the Boolean flags
whether the process was terminated. -/
def Logger.Fatal (l : Logger) (probe : CallerProbe) (now : GoTime)
    (message : String) : List String × Bool :=
  (l.log probe now .FATAL message none, true)

/-- `Logger.Fatalf`. -/
def Logger.Fatalf (l : Logger) (probe : CallerProbe) (now : GoTime)
    (formatted : String) : List String × Bool :=
  (l.log probe now .FATAL formatted none, true)

/-- `parseLogLevel`: the switch from the source, defaulting to INFO. -/
def parseLogLevel (level : String) : LogLevel :=
  if level = "DEBUG" then .DEBUG
  else if level = "INFO" then .INFO
  else if level = "WARN" then .WARN
  else if level = "WARNING" then .WARN
  else if level = "ERROR" then .ERROR
  else if level = "FATAL" then .FATAL
  else .INFO

/-- `parseLogFormat`: defaults to JSON. -/
def parseLogFormat (format : String) : LogFormat :=
  if format = "JSON" then .JSON
  else if format = "TEXT" then .TEXT
  else .JSON

/-- Package-level `Debug`, guarded by `defaultLogger != nil`; the global
handle is the explicit `Option Logger` argument (`none` = never
initialized). -/
def pkgDebug (defaultLogger : Option Logger) (probe : CallerProbe)
    (now : GoTime) (message : String) : List String :=
  match defaultLogger with
  | some l => l.Debug probe now message
  | none => []

/-- Package-level `Debugf`. -/
def pkgDebugf (defaultLogger : Option Logger) (probe : CallerProbe)
    (now : GoTime) (formatted : String) : List String :=
  match defaultLogger with
  | some l => l.Debugf probe now formatted
  | none => []

/-- Package-level `Info`. -/
def pkgInfo (defaultLogger : Option Logger) (probe : CallerProbe)
    (now : GoTime) (message : String) : List String :=
  match defaultLogger with
  | some l => l.Info probe now message
  | none => []

/-- Package-level `Infof`. -/
def pkgInfof (defaultLogger : Option Logger) (probe : CallerProbe)
    (now : GoTime) (formatted : String) : List String :=
  match defaultLogger with
  | some l => l.Infof probe now formatted
  | none => []

/-- Package-level `Warn`. -/
def pkgWarn (defaultLogger : Option Logger) (probe : CallerProbe)
    (now : GoTime) (message : String) : List String :=
  match defaultLogger with
  | some l => l.Warn probe now message
  | none => []

/-- Package-level `Warnf`. -/
def pkgWarnf (defaultLogger : Option Logger) (probe : CallerProbe)
    (now : GoTime) (formatted : String) : List String :=
  match defaultLogger with
  | some l => l.Warnf probe now formatted
  | none => []

/-- Package-level `Error`. -/
def pkgError (defaultLogger : Option Logger) (probe : CallerProbe)
    (now : GoTime) (message : String) : List String :=
  match defaultLogger with
  | some l => l.Error probe now message
  | none => []

/-- Package-level `Errorf`. -/
def pkgErrorf (defaultLogger : Option Logger) (probe : CallerProbe)
    (now : GoTime) (formatted : String) : List String :=
  match defaultLogger with
  | some l => l.Errorf probe now formatted
  | none => []

/-- Package-level `Fatal`: writes plus a process-terminated flag; with a nil
handle neither the log nor `os.Exit` inside `Logger.Fatal` is reached. -/
def pkgFatal (defaultLogger : Option Logger) (probe : CallerProbe)
    (now : GoTime) (message : String) : List String × Bool :=
  match defaultLogger with
  | some l => l.Fatal probe now message
  | none => ([], false)

/-- Package-level `Fatalf`. -/
def pkgFatalf (defaultLogger : Option Logger) (probe : CallerProbe)
    (now : GoTime) (formatted : String) : List String × Bool :=
  match defaultLogger with
  | some l => l.Fatalf probe now formatted
  | none => ([], false)

/-- The `responseWriter` wrapper state: captured status code and cumulative
byte count (`int64 written`; int64 wraparound is disregarded — byte counts
of a response never approach it). -/
structure ResponseWriterState where
  statusCode : Nat
  written : Int
deriving DecidableEq, Repr

/-- `newResponseWriter`: status defaults to `http.StatusOK` (200), counter
to zero. -/
def newResponseWriter : ResponseWriterState :=
  { statusCode := 200, written := 0 }

/-- One call a handler makes on the wrapper: `WriteHeader(code)`, or
`Write(data)` where `n` is the byte count the underlying
`http.ResponseWriter.Write` reports written. -/
inductive RWOp
  | writeHeader (code : Nat)
  | write (n : Int)
deriving DecidableEq, Repr

/-- One step of the wrapper: `WriteHeader` records the code (then delegates);
`Write` delegates and adds the underlying writer's reported count. -/
def rwStep (rw : ResponseWriterState) : RWOp → ResponseWriterState
  | .writeHeader code => { rw with statusCode := code }
  | .write n => { rw with written := rw.written + n }

/-- The wrapper state after a sequence of handler calls. -/
def rwRun (rw : ResponseWriterState) (ops : List RWOp) : ResponseWriterState :=
  ops.foldl rwStep rw

/-- The request data the Logging stage reads. `xRequestID` is
`r.Header.Get("X-Request-ID")` (`""` when the header is absent or empty). -/
structure HttpRequest where
  method : String
  path : String
  rawQuery : String
  userAgent : String
  remoteAddr : String
  host : String
  contentLength : Int
  xRequestID : String
  ctx : GoContext
deriving DecidableEq, Repr

/-- One logging call the middleware issues: the emit level, the message, the
per-call field map passed to `WithFields`, and the correlation scope passed
to the `...Context` emit method. (Threshold filtering and sink writes are
the logger's concern, settled separately.) -/
structure LogCall where
  level : LogLevel
  message : String
  fields : FieldMap
  ctx : GoContext
deriving DecidableEq, Repr

/-- Everything observable about one pass through the Logging stage
`LoggingMiddleware.Handler`: the chosen request id, the outbound
`X-Request-ID` response header, the context handed to the inner handler, the
final captured status/byte count, and the logging calls issued in order. -/
structure HandlerTrace where
  requestID : String
  responseXRequestID : String
  innerCtx : GoContext
  statusCode : Nat
  written : Int
  calls : List LogCall
deriving DecidableEq, Repr

/-- The Handler's `requestID` local: the inbound `X-Request-ID` header
verbatim when non-empty, otherwise the freshly generated
`uuid.New().String()` value. -/
def chosenRequestID (freshID : String) (req : HttpRequest) : String :=
  if req.xRequestID = "" then freshID else req.xRequestID

/-- The Handler's `ctx` local: the request context with the chosen request
id installed. -/
def handlerCtx (freshID : String) (req : HttpRequest) : GoContext :=
  WithRequestID req.ctx (chosenRequestID freshID req)

/-- The "HTTP request started" logging call. -/
def startedCall (freshID : String) (req : HttpRequest) : LogCall :=
  { level := .INFO
    message := "HTTP request started"
    fields :=
      [("http_method", .vStr req.method),
       ("http_path", .vStr req.path),
       ("http_query", .vStr req.rawQuery),
       ("http_user_agent", .vStr req.userAgent),
       ("http_remote_addr", .vStr req.remoteAddr),
       ("http_host", .vStr req.host),
       ("request_id", .vStr (chosenRequestID freshID req)),
       ("content_length", .vInt req.contentLength)]
    ctx := handlerCtx freshID req }

/-- The "HTTP request completed" logging call, read off the wrapped writer's
final state and the elapsed duration. -/
def completedCall (freshID : String) (req : HttpRequest) (inner : List RWOp)
    (durNs : Nat) : LogCall :=
  { level := .INFO
    message := "HTTP request completed"
    fields :=
      [("http_method", .vStr req.method),
       ("http_path", .vStr req.path),
       ("http_status_code", .vInt ((rwRun newResponseWriter inner).statusCode : Int)),
       ("http_remote_addr", .vStr req.remoteAddr),
       ("request_id", .vStr (chosenRequestID freshID req)),
       ("duration_ms", .vInt ((durNs / 1000000 : Nat) : Int)),
       ("response_size", .vInt (rwRun newResponseWriter inner).written)]
    ctx := handlerCtx freshID req }

/-- The "Slow HTTP request detected" warning call. -/
def slowCall (freshID : String) (req : HttpRequest) (durNs : Nat) : LogCall :=
  { level := .WARN
    message := "Slow HTTP request detected"
    fields :=
      [("http_method", .vStr req.method),
       ("http_path", .vStr req.path),
       ("duration_ms", .vInt ((durNs / 1000000 : Nat) : Int)),
       ("request_id", .vStr (chosenRequestID freshID req))]
    ctx := handlerCtx freshID req }

/-- The status-class record: ERROR "server error" at 500+, WARN "client
error" otherwise (only issued at all when the status is 400+). -/
def statusClassCall (freshID : String) (req : HttpRequest) (inner : List RWOp) : LogCall :=
  { level :=
      if (rwRun newResponseWriter inner).statusCode ≥ 500 then LogLevel.ERROR
      else LogLevel.WARN
    message :=
      if (rwRun newResponseWriter inner).statusCode ≥ 500 then
        "HTTP request failed with server error"
      else "HTTP request failed with client error"
    fields :=
      [("http_method", .vStr req.method),
       ("http_path", .vStr req.path),
       ("http_status_code", .vInt ((rwRun newResponseWriter inner).statusCode : Int)),
       ("request_id", .vStr (chosenRequestID freshID req))]
    ctx := handlerCtx freshID req }

/-- The logging calls the Handler issues, in source order: request started,
request completed, then the slow-request warning when the duration exceeds
5 seconds, then the status-class record when the captured status is 400+. -/
def handlerCalls (freshID : String) (req : HttpRequest) (inner : List RWOp)
    (durNs : Nat) : List LogCall :=
  [startedCall freshID req, completedCall freshID req inner durNs]
  ++ (if durNs > 5000000000 then [slowCall freshID req durNs] else [])
  ++ (if (rwRun newResponseWriter inner).statusCode ≥ 400 then
        [statusClassCall freshID req inner]
      else [])

/-- `LoggingMiddleware.Handler`, as a pure function of: the fresh identifier
`uuid.New().String()` would return, the request, the calls the inner handler
makes on the wrapped writer, and the elapsed duration in nanoseconds
(`time.Since(start)`). Mirrors the source order: choose/generate the request
id, install it in the context and the outbound response header, wrap the
writer, run the inner handler, and issue the logging calls of
`handlerCalls`. -/
def handlerRun (freshID : String) (req : HttpRequest) (inner : List RWOp)
    (durNs : Nat) : HandlerTrace :=
  { requestID := chosenRequestID freshID req
    responseXRequestID := chosenRequestID freshID req
    innerCtx := handlerCtx freshID req
    statusCode := (rwRun newResponseWriter inner).statusCode
    written := (rwRun newResponseWriter inner).written
    calls := handlerCalls freshID req inner durNs }

/-- How many of the issued calls carry a given level and message. -/
def countCalls : List LogCall → LogLevel → String → Nat
  | [], _, _ => 0
  | c :: rest, level, message =>
      (if c.level = level ∧ c.message = message then 1 else 0)
      + countCalls rest level message

/-- A Go `map[string]int` as an association list with unique keys. -/
abbrev CountMap := List (String × Nat)

/-- Go map read `m[k]` on a counter map: missing keys read as zero. -/
def getCount : CountMap → String → Nat
  | [], _ => 0
  | (k', c) :: rest, k => if k' = k then c else getCount rest k

/-- Go `m[k]++`: bump the binding, creating it at 1 when missing (the zero
value plus one). -/
def incrCount : CountMap → String → CountMap
  | [], k => [(k, 1)]
  | (k', c) :: rest, k =>
      if k' = k then (k', c + 1) :: rest else (k', c) :: incrCount rest k

/-- The rate limiter's closure state: the shared counter map and the time of
the most recent window reset (`lastReset`). Times are in seconds. -/
structure RLState where
  requestCounts : CountMap
  lastReset : Nat
deriving DecidableEq, Repr

/-- The outcome of one request through `RateLimitMiddleware`: the new state,
the response status it wrote itself (`some 429` on denial, `none`
otherwise), the logging calls it issued, and whether the inner handler was
invoked. -/
structure RLResult where
  state : RLState
  status : Option Nat
  logs : List (LogLevel × String)
  handlerInvoked : Bool
deriving DecidableEq, Repr

/-- The count/threshold phase of the middleware body, after any reset:
increment the requester's counter; over 100 deny with 429, a warning log and
no inner call; over 50 allow with a "high rate" info log; otherwise allow
silently. -/
def rateLimitCheck (st : RLState) (clientIP : String) : RLResult :=
  if getCount (incrCount st.requestCounts clientIP) clientIP > 100 then
    { state := { requestCounts := incrCount st.requestCounts clientIP, lastReset := st.lastReset }
      status := some 429
      logs := [(LogLevel.WARN, "Rate limit exceeded")]
      handlerInvoked := false }
  else
    { state := { requestCounts := incrCount st.requestCounts clientIP, lastReset := st.lastReset }
      status := none
      logs :=
        if getCount (incrCount st.requestCounts clientIP) clientIP > 50 then
          [(LogLevel.INFO, "High request rate detected")]
        else []
      handlerInvoked := true }

/-- One request through `RateLimitMiddleware` arriving at time `now`: when
`time.Since(lastReset) > time.Minute` the whole counter map is replaced by a
fresh empty map and `lastReset` is set to `now`, before the request is
counted and checked. -/
def rateLimitStep (st : RLState) (now : Nat) (clientIP : String) : RLResult :=
  if now - st.lastReset > 60 then
    rateLimitCheck { requestCounts := [], lastReset := now } clientIP
  else
    rateLimitCheck st clientIP

/-- Run the rate limiter over a whole request trace (arrival time, client
key), returning the final closure state. -/
def runRL (st : RLState) : List (Nat × String) → RLState
  | [] => st
  | (t, ip) :: rest => runRL (rateLimitStep st t ip).state rest

/-- Occurrences of a key in a list of observed client keys. -/
def countKey : List String → String → Nat
  | [], _ => 0
  | x :: rest, k => (if x = k then 1 else 0) + countKey rest k

/-- Specification-side bookkeeping: the client keys of the requests observed
since the most recent window reset, replaying the same reset condition the
middleware evaluates. -/
def sinceReset (st : RLState) (since : List String) :
    List (Nat × String) → List String
  | [] => since
  | (t, ip) :: rest =>
      sinceReset (rateLimitStep st t ip).state
        (if t - st.lastReset > 60 then [ip] else since ++ [ip]) rest

/-- Lookup in the union of two field maps with the first map's keys taking
precedence — the documented meaning of a `WithFields` derivation. -/
def unionLookup (m base : FieldMap) (k : String) : Option GoValue :=
  match lookupGo m k with
  | some v => some v
  | none => lookupGo base k

/-- Sum of the byte counts the underlying writer reported across a call
sequence. -/
def sumWritten : List RWOp → Int
  | [] => 0
  | RWOp.write n :: rest => n + sumWritten rest
  | RWOp.writeHeader _ :: rest => sumWritten rest

/-- A concrete instant for witness evaluations. -/
def sampleTime : GoTime :=
  { rfc3339 := "2026-01-01T00:00:00Z", textFmt := "2026-01-01 00:00:00" }

/-- A concrete logger for witness evaluations. -/
def sampleLogger : Logger :=
  { level := .INFO
    service := "log-ingestion"
    component := "http"
    output := 0
    format := .JSON
    fields := [] }

/-- A concrete base logger carrying fields, for witness evaluations. -/
def sampleBase : Logger :=
  { sampleLogger with fields := [("app", .vStr "ingest"), ("zone", .vStr "eu")] }

/-- Concrete fields to merge in, one overriding a base key. -/
def sampleAdd : FieldMap := [("zone", .vStr "us"), ("shard", .vInt 3)]

/-- A concrete request carrying an inbound X-Request-ID header. -/
def sampleRequest : HttpRequest :=
  { method := "GET"
    path := "/ingest"
    rawQuery := ""
    userAgent := "curl"
    remoteAddr := "127.0.0.1:9"
    host := "localhost"
    contentLength := 0
    xRequestID := "existing-id"
    ctx := backgroundContext }

/-- The same request without the inbound header. -/
def sampleRequestNoID : HttpRequest := { sampleRequest with xRequestID := "" }

/-- Shared lemma: lookup after a Go map assignment. -/
theorem lookupGo_insertGo (dst : FieldMap) (k k' : String) (v : GoValue) :
    lookupGo (insertGo dst k v) k' = if k = k' then some v else lookupGo dst k' := by
  induction dst with
  | nil => simp [insertGo, lookupGo]
  | cons hd tl ih =>
      obtain ⟨k0, v0⟩ := hd
      by_cases h0 : k0 = k <;> by_cases h1 : k = k' <;>
        simp_all [insertGo, lookupGo]

/-- Shared lemma: a key absent from the key list is unbound. -/
theorem lookupGo_eq_none (m : FieldMap) (k : String)
    (h : k ∉ m.map Prod.fst) : lookupGo m k = none := by
  induction m with
  | nil => rfl
  | cons hd tl ih =>
      obtain ⟨k0, v0⟩ := hd
      simp only [List.map_cons, List.mem_cons] at h
      push_neg at h
      simp only [lookupGo]
      rw [if_neg (fun h' => h.1 h'.symm)]
      exact ih h.2

/-- Shared lemma: lookup after the Go copy loop is lookup in the union, the
copied-in map's keys taking precedence, provided the copied-in map has
unique keys (every Go map does). -/
theorem lookupGo_copyRange (src : FieldMap) :
    ∀ (dst : FieldMap) (k : String), (src.map Prod.fst).Nodup →
      lookupGo (copyRange dst src) k = unionLookup src dst k := by
  induction src with
  | nil =>
      intro dst k _
      simp [copyRange, unionLookup, lookupGo]
  | cons hd tl ih =>
      intro dst k h
      obtain ⟨k0, v0⟩ := hd
      simp only [List.map_cons, List.nodup_cons] at h
      obtain ⟨hk0, hnd⟩ := h
      have hstep : copyRange dst ((k0, v0) :: tl) = copyRange (insertGo dst k0 v0) tl := rfl
      rw [hstep, ih _ k hnd]
      unfold unionLookup
      by_cases h1 : k0 = k
      · subst h1
        rw [lookupGo_eq_none tl k0 hk0]
        simp [lookupGo, lookupGo_insertGo]
      · simp only [lookupGo, h1, if_neg h1]
        cases htl : lookupGo tl k with
        | some v => simp
        | none => simp [lookupGo_insertGo, h1]

/-- Shared lemma: counter read after a Go counter increment. -/
theorem getCount_incrCount (m : CountMap) (k k' : String) :
    getCount (incrCount m k) k' = getCount m k' + (if k = k' then 1 else 0) := by
  induction m with
  | nil => simp [incrCount, getCount]
  | cons hd tl ih =>
      obtain ⟨k0, c⟩ := hd
      by_cases h0 : k0 = k
      · subst h0
        by_cases h1 : k0 = k'
        · subst h1; simp [incrCount, getCount]
        · simp [incrCount, getCount, h1]
      · by_cases h1 : k0 = k'
        · subst h1
          have hkk : ¬ k = k0 := fun hh => h0 hh.symm
          simp [incrCount, getCount, h0, hkk]
        · simp [incrCount, getCount, h0, h1, ih]

/-- Shared lemma: key occurrences distribute over list append. -/
theorem countKey_append (a b : List String) (k : String) :
    countKey (a ++ b) k = countKey a k + countKey b k := by
  induction a with
  | nil => simp [countKey]
  | cons x rest ih => simp [countKey, ih]; omega

/-- Shared lemma: the rate-limit check phase always stores the incremented
counter map and preserves the reset time, whatever the decision. -/
theorem rateLimitCheck_state (st : RLState) (ip : String) :
    (rateLimitCheck st ip).state =
      { requestCounts := incrCount st.requestCounts ip, lastReset := st.lastReset } := by
  unfold rateLimitCheck
  split <;> rfl

/-- C9: level parsing is total and recognizes the alias "WARNING": the five
enum names map to their levels, "WARNING" maps to WARN, and every other
string (lowercase spellings included) maps to INFO; no input fails. -/
theorem C9_parseLogLevel_total :
    parseLogLevel "DEBUG" = LogLevel.DEBUG ∧
    parseLogLevel "INFO" = LogLevel.INFO ∧
    parseLogLevel "WARN" = LogLevel.WARN ∧
    parseLogLevel "WARNING" = LogLevel.WARN ∧
    parseLogLevel "ERROR" = LogLevel.ERROR ∧
    parseLogLevel "FATAL" = LogLevel.FATAL ∧
    ∀ s : String, s ≠ "DEBUG" → s ≠ "INFO" → s ≠ "WARN" → s ≠ "WARNING" →
      s ≠ "ERROR" → s ≠ "FATAL" → parseLogLevel s = LogLevel.INFO := by
  refine ⟨by decide, by decide, by decide, by decide, by decide, by decide, ?_⟩
  intro s h1 h2 h3 h4 h5 h6
  simp [parseLogLevel, h1, h2, h3, h4, h5, h6]

/-- Witness for C9 at the concrete unrecognized input "debug". -/
theorem C9_parseLogLevel_total_witness : parseLogLevel "debug" = LogLevel.INFO :=
  C9_parseLogLevel_total.2.2.2.2.2.2 "debug" (by decide) (by decide) (by decide)
    (by decide) (by decide) (by decide)

/-- C10: with a nil default-logger handle, every package-level logging
function is a no-op — no write reaches any sink, and the package-level
Fatal/Fatalf never reach `os.Exit` (termination flag stays false). -/
theorem C10_nil_default_logger_noop (probe : CallerProbe) (now : GoTime)
    (msg : String) :
    pkgDebug none probe now msg = [] ∧ pkgDebugf none probe now msg = [] ∧
    pkgInfo none probe now msg = [] ∧ pkgInfof none probe now msg = [] ∧
    pkgWarn none probe now msg = [] ∧ pkgWarnf none probe now msg = [] ∧
    pkgError none probe now msg = [] ∧ pkgErrorf none probe now msg = [] ∧
    pkgFatal none probe now msg = ([], false) ∧
    pkgFatalf none probe now msg = ([], false) :=
  ⟨rfl, rfl, rfl, rfl, rfl, rfl, rfl, rfl, rfl, rfl⟩

/-- C1: a logger whose threshold is L2 emits nothing (not even a constructed
record) for a call at any level L1 below L2, and emits exactly one
newline-terminated write for a call at any level at or above L2. The
threshold comparison is the first step of `Logger.logRecord`, before caller
resolution, record construction, or encoding, exactly as in the source. -/
theorem C1_threshold_filtering (L1 L2 : LogLevel)
    (h : L1.toGoInt < L2.toGoInt) (l : Logger) (hl : l.level = L2) :
    (∀ probe now msg extra,
       l.logRecord probe now L1 msg extra = none ∧
       l.log probe now L1 msg extra = []) ∧
    (∀ (L3 : LogLevel) (probe : CallerProbe) (now : GoTime) (msg : String)
       (extra : Option FieldMap), L2.toGoInt ≤ L3.toGoInt →
       ∃ rec, l.log probe now L3 msg extra = [rec ++ "\n"]) := by
  constructor
  · intro probe now msg extra
    have hrec : l.logRecord probe now L1 msg extra = none := by
      unfold Logger.logRecord
      rw [hl, if_pos h]
    refine ⟨hrec, ?_⟩
    unfold Logger.log
    rw [hrec]
  · intro L3 probe now msg extra h3
    have hlt : ¬ L3.toGoInt < l.level.toGoInt := by rw [hl]; omega
    have hrec : ∃ e, l.logRecord probe now L3 msg extra = some e := by
      unfold Logger.logRecord
      rw [if_neg hlt]
      exact ⟨_, rfl⟩
    obtain ⟨e, he⟩ := hrec
    have hwe : ∃ rec, l.writeEntry e = [rec ++ "\n"] := by
      unfold Logger.writeEntry
      cases l.format
      · exact ⟨marshalEntry e, rfl⟩
      · exact ⟨l.formatTextEntry e, rfl⟩
    obtain ⟨rec, hre⟩ := hwe
    refine ⟨rec, ?_⟩
    unfold Logger.log
    rw [he]
    exact hre

/-- Witness for C1: threshold INFO filters a DEBUG call and passes an INFO
call as one newline-terminated write. -/
theorem C1_threshold_filtering_witness :
    (sampleLogger.logRecord CallerProbe.fail sampleTime LogLevel.DEBUG "m" none = none ∧
     sampleLogger.log CallerProbe.fail sampleTime LogLevel.DEBUG "m" none = []) ∧
    ∃ rec, sampleLogger.log CallerProbe.fail sampleTime LogLevel.INFO "m" none = [rec ++ "\n"] :=
  ⟨(C1_threshold_filtering LogLevel.DEBUG LogLevel.INFO (by decide) sampleLogger rfl).1
      CallerProbe.fail sampleTime "m" none,
   (C1_threshold_filtering LogLevel.DEBUG LogLevel.INFO (by decide) sampleLogger rfl).2
      LogLevel.INFO CallerProbe.fail sampleTime "m" none (by decide)⟩

/-- C8: when the `runtime.Caller` probe fails, `getCaller` yields exactly the
sentinel triple file "unknown", line 0, function "unknown"; a logging call
at or above the threshold still succeeds, producing exactly one write whose
record carries that triple — the failure never escapes the call (the model's
emit path is total). -/
theorem C8_caller_sentinel :
    getCaller CallerProbe.fail = ("unknown", 0, "unknown") ∧
    ∀ (l : Logger) (now : GoTime) (level : LogLevel) (msg : String)
      (extra : Option FieldMap), l.level.toGoInt ≤ level.toGoInt →
      ∃ e, l.logRecord CallerProbe.fail now level msg extra = some e ∧
        e.File = "unknown" ∧ e.Line = 0 ∧ e.Function = "unknown" ∧
        l.log CallerProbe.fail now level msg extra = l.writeEntry e ∧
        (l.log CallerProbe.fail now level msg extra).length = 1 := by
  refine ⟨rfl, ?_⟩
  intro l now level msg extra hle
  have hlt : ¬ level.toGoInt < l.level.toGoInt := by omega
  have hrec : ∃ e, l.logRecord CallerProbe.fail now level msg extra = some e ∧
      e.File = "unknown" ∧ e.Line = 0 ∧ e.Function = "unknown" := by
    unfold Logger.logRecord
    rw [if_neg hlt]
    exact ⟨_, rfl, rfl, rfl, rfl⟩
  obtain ⟨e, he, hf, hline, hfn⟩ := hrec
  have hlog : l.log CallerProbe.fail now level msg extra = l.writeEntry e := by
    unfold Logger.log
    rw [he]
  refine ⟨e, he, hf, hline, hfn, hlog, ?_⟩
  rw [hlog]
  unfold Logger.writeEntry
  cases l.format <;> rfl

/-- Witness for C8 at a concrete logger and INFO call. -/
theorem C8_caller_sentinel_witness :
    ∃ e, sampleLogger.logRecord CallerProbe.fail sampleTime LogLevel.INFO "m" none = some e ∧
      e.File = "unknown" ∧ e.Line = 0 ∧ e.Function = "unknown" ∧
      sampleLogger.log CallerProbe.fail sampleTime LogLevel.INFO "m" none = sampleLogger.writeEntry e ∧
      (sampleLogger.log CallerProbe.fail sampleTime LogLevel.INFO "m" none).length = 1 :=
  C8_caller_sentinel.2 sampleLogger sampleTime LogLevel.INFO "m" none (by decide)

/-- Shared lemma: running the wrapper over an appended call sequence. -/
theorem rwRun_append (rw0 : ResponseWriterState) (a b : List RWOp) :
    rwRun rw0 (a ++ b) = rwRun (rwRun rw0 a) b := by
  simp [rwRun, List.foldl_append]

/-- Shared lemma: without any `WriteHeader` call the captured status is
untouched. -/
theorem rwRun_statusCode_of_no_writeHeader :
    ∀ (ops : List RWOp) (rw0 : ResponseWriterState),
      (∀ c, RWOp.writeHeader c ∉ ops) →
      (rwRun rw0 ops).statusCode = rw0.statusCode := by
  intro ops
  induction ops with
  | nil => intro rw0 _; rfl
  | cons op rest ih =>
      intro rw0 h
      cases op with
      | writeHeader c => exact absurd (List.mem_cons_self _ _) (h c)
      | write n =>
          have h' : ∀ c, RWOp.writeHeader c ∉ rest :=
            fun c hc => h c (List.mem_cons_of_mem _ hc)
          exact ih _ h'

/-- Shared lemma: after a header sequence ending in `c`, the captured status
is `c`. -/
theorem rwRun_statusCode_last (codes : List Nat) (c : Nat) :
    ∀ rw0, (rwRun rw0 ((codes ++ [c]).map RWOp.writeHeader)).statusCode = c := by
  induction codes with
  | nil => intro rw0; rfl
  | cons c0 rest ih => intro rw0; exact ih _

/-- Shared lemma: the byte counter accumulates the underlying writer's
reported counts. -/
theorem rwRun_written :
    ∀ (ops : List RWOp) (rw0 : ResponseWriterState),
      (rwRun rw0 ops).written = rw0.written + sumWritten ops := by
  intro ops
  induction ops with
  | nil => intro rw0; simp [rwRun, sumWritten]
  | cons op rest ih =>
      intro rw0
      cases op with
      | writeHeader c =>
          show (rwRun (rwStep rw0 (.writeHeader c)) rest).written
            = rw0.written + sumWritten (RWOp.writeHeader c :: rest)
          rw [ih]
          simp [rwStep, sumWritten]
      | write n =>
          show (rwRun (rwStep rw0 (.write n)) rest).written
            = rw0.written + sumWritten (RWOp.write n :: rest)
          rw [ih]
          simp [rwStep, sumWritten]
          omega

/-- C5: on a fresh wrapper, the captured status is 200 when the handler
never calls WriteHeader; after WriteHeader calls preceding the body writes
the captured status is the last code passed; and the byte counter equals the
sum of the counts the underlying sink reported for the Write calls. -/
theorem C5_response_writer_capture :
    (∀ ops : List RWOp, (∀ c, RWOp.writeHeader c ∉ ops) →
       (rwRun newResponseWriter ops).statusCode = 200) ∧
    (∀ (codes : List Nat) (c : Nat) (ns : List Int),
       (rwRun newResponseWriter
         ((codes ++ [c]).map RWOp.writeHeader ++ ns.map RWOp.write)).statusCode = c) ∧
    (∀ ops : List RWOp,
       (rwRun newResponseWriter ops).written = sumWritten ops) := by
  refine ⟨?_, ?_, ?_⟩
  · intro ops h
    rw [rwRun_statusCode_of_no_writeHeader ops newResponseWriter h]
    rfl
  · intro codes c ns
    rw [rwRun_append]
    rw [rwRun_statusCode_of_no_writeHeader (ns.map RWOp.write) _ ?_]
    · exact rwRun_statusCode_last codes c _
    · intro c' hc
      rcases List.mem_map.1 hc with ⟨n, _, hn⟩
      exact RWOp.noConfusion hn
  · intro ops
    rw [rwRun_written]
    show (0 : Int) + sumWritten ops = sumWritten ops
    omega

/-- Witness for C5: a body-only sequence keeps the default 200; headers 503
then 404 followed by body writes capture 404; bytes accumulate. -/
theorem C5_response_writer_capture_witness :
    (rwRun newResponseWriter [RWOp.write 7]).statusCode = 200 ∧
    (rwRun newResponseWriter
      (([503] ++ [404]).map RWOp.writeHeader ++ [(3 : Int), 4].map RWOp.write)).statusCode = 404 ∧
    (rwRun newResponseWriter [RWOp.write 3, RWOp.write 4]).written =
      sumWritten [RWOp.write 3, RWOp.write 4] :=
  ⟨C5_response_writer_capture.1 [RWOp.write 7] (by intro c hc; simp at hc),
   C5_response_writer_capture.2.1 [503] 404 [3, 4],
   C5_response_writer_capture.2.2 [RWOp.write 3, RWOp.write 4]⟩

/-- Shared lemma: lookup after copying a unique-keyed map into a fresh empty
map gives back the same mapping. -/
theorem lookupGo_copyRange_nil (src : FieldMap) (k : String)
    (h : (src.map Prod.fst).Nodup) :
    lookupGo (copyRange [] src) k = lookupGo src k := by
  rw [lookupGo_copyRange src [] k h]
  unfold unionLookup
  cases lookupGo src k <;> simp [lookupGo]

/-- C2: `WithFields` returns a logger with every configuration field of the
base unchanged and a field map whose lookups are the union of the supplied
map and the base's fields, supplied keys overriding. The base logger is a
pure value here, so the receiver cannot be mutated; the source's discipline
of writing only into a freshly made map is mirrored by building the derived
map from `[]`, so the derived map shares no structure that a later
derivation could overwrite. Hypotheses: both maps have unique keys, as every
Go map does. -/
theorem C2_withFields_union_frame (base : Logger) (m : FieldMap)
    (hb : (base.fields.map Prod.fst).Nodup) (hm : (m.map Prod.fst).Nodup) :
    (base.WithFields m).level = base.level ∧
    (base.WithFields m).service = base.service ∧
    (base.WithFields m).component = base.component ∧
    (base.WithFields m).format = base.format ∧
    (base.WithFields m).output = base.output ∧
    ∀ k, lookupGo (base.WithFields m).fields k = unionLookup m base.fields k := by
  refine ⟨rfl, rfl, rfl, rfl, rfl, ?_⟩
  intro k
  show lookupGo (copyRange (copyRange [] base.fields) m) k = unionLookup m base.fields k
  rw [lookupGo_copyRange m _ k hm]
  unfold unionLookup
  rw [lookupGo_copyRange_nil base.fields k hb]

/-- Witness for C2: merging `sampleAdd` over `sampleBase` overrides "zone",
keeps "app", adds "shard". -/
theorem C2_withFields_union_frame_witness :
    lookupGo (sampleBase.WithFields sampleAdd).fields "zone" = some (GoValue.vStr "us") ∧
    lookupGo (sampleBase.WithFields sampleAdd).fields "app" = some (GoValue.vStr "ingest") ∧
    lookupGo (sampleBase.WithFields sampleAdd).fields "shard" = some (GoValue.vInt 3) ∧
    (sampleBase.WithFields sampleAdd).component = sampleBase.component :=
  ⟨((C2_withFields_union_frame sampleBase sampleAdd (by decide) (by decide)).2.2.2.2.2
      "zone").trans (by decide),
   ((C2_withFields_union_frame sampleBase sampleAdd (by decide) (by decide)).2.2.2.2.2
      "app").trans (by decide),
   ((C2_withFields_union_frame sampleBase sampleAdd (by decide) (by decide)).2.2.2.2.2
      "shard").trans (by decide),
   (C2_withFields_union_frame sampleBase sampleAdd (by decide) (by decide)).2.2.1⟩

/-- C3: within one window (no reset pending), the request bringing a
client's counter to 50 is allowed; a request whose incremented counter is in
51..100 is allowed and issues the INFO "high rate" log; and a request whose
incremented counter exceeds 100 is denied with status 429 and a warning log,
without invoking the inner handler. -/
theorem C3_rate_limit_thresholds (st : RLState) (now : Nat) (ip : String)
    (hwin : ¬ now - st.lastReset > 60) :
    (getCount (incrCount st.requestCounts ip) ip = 50 →
       (rateLimitStep st now ip).status = none ∧
       (rateLimitStep st now ip).handlerInvoked = true ∧
       (rateLimitStep st now ip).logs = []) ∧
    (50 < getCount (incrCount st.requestCounts ip) ip ∧
       getCount (incrCount st.requestCounts ip) ip ≤ 100 →
       (rateLimitStep st now ip).status = none ∧
       (rateLimitStep st now ip).handlerInvoked = true ∧
       (rateLimitStep st now ip).logs = [(LogLevel.INFO, "High request rate detected")]) ∧
    (100 < getCount (incrCount st.requestCounts ip) ip →
       (rateLimitStep st now ip).status = some 429 ∧
       (rateLimitStep st now ip).handlerInvoked = false ∧
       (rateLimitStep st now ip).logs = [(LogLevel.WARN, "Rate limit exceeded")]) := by
  have hstep : rateLimitStep st now ip = rateLimitCheck st ip := by
    unfold rateLimitStep
    rw [if_neg hwin]
  rw [hstep]
  unfold rateLimitCheck
  refine ⟨?_, ?_, ?_⟩
  · intro h
    rw [if_neg (by omega : ¬ getCount (incrCount st.requestCounts ip) ip > 100)]
    refine ⟨rfl, rfl, ?_⟩
    show (if getCount (incrCount st.requestCounts ip) ip > 50 then
            [(LogLevel.INFO, "High request rate detected")] else []) = []
    rw [if_neg (by omega)]
  · rintro ⟨h1, h2⟩
    rw [if_neg (by omega : ¬ getCount (incrCount st.requestCounts ip) ip > 100)]
    refine ⟨rfl, rfl, ?_⟩
    show (if getCount (incrCount st.requestCounts ip) ip > 50 then
            [(LogLevel.INFO, "High request rate detected")] else [])
      = [(LogLevel.INFO, "High request rate detected")]
    rw [if_pos (by omega)]
  · intro h
    rw [if_pos (by omega : getCount (incrCount st.requestCounts ip) ip > 100)]
    exact ⟨rfl, rfl, rfl⟩

/-- Witness for C3: the 50th request of a client is allowed without the
high-rate log; the 101st is denied with 429 and the warning log. -/
theorem C3_rate_limit_thresholds_witness :
    ((rateLimitStep { requestCounts := [("10.0.0.1:1", 49)], lastReset := 0 } 30 "10.0.0.1:1").status = none ∧
     (rateLimitStep { requestCounts := [("10.0.0.1:1", 49)], lastReset := 0 } 30 "10.0.0.1:1").handlerInvoked = true ∧
     (rateLimitStep { requestCounts := [("10.0.0.1:1", 49)], lastReset := 0 } 30 "10.0.0.1:1").logs = []) ∧
    ((rateLimitStep { requestCounts := [("10.0.0.1:1", 100)], lastReset := 0 } 30 "10.0.0.1:1").status = some 429 ∧
     (rateLimitStep { requestCounts := [("10.0.0.1:1", 100)], lastReset := 0 } 30 "10.0.0.1:1").handlerInvoked = false ∧
     (rateLimitStep { requestCounts := [("10.0.0.1:1", 100)], lastReset := 0 } 30 "10.0.0.1:1").logs = [(LogLevel.WARN, "Rate limit exceeded")]) :=
  ⟨(C3_rate_limit_thresholds _ 30 _ (by decide)).1 (by decide),
   (C3_rate_limit_thresholds _ 30 _ (by decide)).2.2 (by decide)⟩

/-- C4: when a request arrives more than 60 seconds after the last reset,
the whole counter map is discarded and `lastReset` becomes `now` before the
request is counted — afterwards only the requester holds a count, namely 1,
so even a previously denied client is allowed again. And over any request
trace, each key's count equals the number of requests observed for that key
since the most recent global reset (replayed by `sinceReset`). -/
theorem C4_window_reset_invariant :
    (∀ (st : RLState) (now : Nat) (ip : String), now - st.lastReset > 60 →
       (rateLimitStep st now ip).state.lastReset = now ∧
       (∀ k, getCount (rateLimitStep st now ip).state.requestCounts k =
          if k = ip then 1 else 0) ∧
       (rateLimitStep st now ip).status = none ∧
       (rateLimitStep st now ip).handlerInvoked = true) ∧
    (∀ (tr : List (Nat × String)) (st : RLState) (since : List String),
       (∀ k, getCount st.requestCounts k = countKey since k) →
       ∀ k, getCount (runRL st tr).requestCounts k =
         countKey (sinceReset st since tr) k) := by
  constructor
  · intro st now ip h
    have hstep : rateLimitStep st now ip =
        rateLimitCheck { requestCounts := [], lastReset := now } ip := by
      unfold rateLimitStep
      rw [if_pos h]
    have hc1 : getCount (incrCount ({ requestCounts := [], lastReset := now } : RLState).requestCounts ip) ip = 1 := by
      simp [incrCount, getCount]
    rw [hstep]
    refine ⟨?_, ?_, ?_, ?_⟩
    · rw [rateLimitCheck_state]
    · intro k
      rw [rateLimitCheck_state]
      show getCount (incrCount ([] : CountMap) ip) k = if k = ip then 1 else 0
      rw [getCount_incrCount]
      by_cases hk : k = ip
      · simp [getCount, hk]
      · have hik : ¬ ip = k := fun hh => hk hh.symm
        simp [getCount, hk, hik]
    · unfold rateLimitCheck
      rw [if_neg (by rw [hc1]; omega)]
    · unfold rateLimitCheck
      rw [if_neg (by rw [hc1]; omega)]
  · intro tr
    induction tr with
    | nil =>
        intro st since h k
        exact h k
    | cons hd rest ih =>
        intro st since h k
        obtain ⟨t, ip⟩ := hd
        have hinv : ∀ k', getCount (rateLimitStep st t ip).state.requestCounts k' =
            countKey (if t - st.lastReset > 60 then [ip] else since ++ [ip]) k' := by
          intro k'
          by_cases hr : t - st.lastReset > 60
          · rw [if_pos hr]
            unfold rateLimitStep
            rw [if_pos hr, rateLimitCheck_state]
            show getCount (incrCount ([] : CountMap) ip) k' = countKey [ip] k'
            rw [getCount_incrCount]
            simp [getCount, countKey]
          · rw [if_neg hr]
            unfold rateLimitStep
            rw [if_neg hr, rateLimitCheck_state]
            show getCount (incrCount st.requestCounts ip) k' = countKey (since ++ [ip]) k'
            rw [getCount_incrCount, countKey_append, h k']
            simp [countKey]
        exact ih (rateLimitStep st t ip).state
          (if t - st.lastReset > 60 then [ip] else since ++ [ip]) hinv k

/-- Witness for C4: a client at count 200 is allowed again once the window
has expired, and the per-key invariant evaluated on a concrete trace that
crosses a window boundary. -/
theorem C4_window_reset_invariant_witness :
    (rateLimitStep { requestCounts := [("10.0.0.1:1", 200)], lastReset := 0 } 61 "10.0.0.1:1").status = none ∧
    getCount (runRL { requestCounts := [], lastReset := 0 }
        [(1, "a"), (2, "b"), (70, "a")]).requestCounts "a" =
      countKey (sinceReset { requestCounts := [], lastReset := 0 } []
        [(1, "a"), (2, "b"), (70, "a")]) "a" :=
  ⟨(C4_window_reset_invariant.1 _ 61 _ (by decide)).2.2.1,
   C4_window_reset_invariant.2 [(1, "a"), (2, "b"), (70, "a")]
     { requestCounts := [], lastReset := 0 } [] (fun _ => rfl) "a"⟩

/-- Shared lemma: call counts distribute over list append. -/
theorem countCalls_append (a b : List LogCall) (lvl : LogLevel) (msg : String) :
    countCalls (a ++ b) lvl msg = countCalls a lvl msg + countCalls b lvl msg := by
  induction a with
  | nil => simp [countCalls]
  | cons c rest ih =>
      simp [countCalls, ih]
      omega

/-- C7: every pass through the Logging stage issues exactly one INFO
"request completed" record; a final status of 500+ adds exactly one ERROR
"server error" record (and no client-error one); a status in 400..499 adds
exactly one WARN "client error" record (and no server-error one); below 400
neither extra record is issued — the extras are in addition to, never
instead of, the completion record. -/
theorem C7_status_class_records (freshID : String) (req : HttpRequest)
    (inner : List RWOp) (durNs : Nat) :
    countCalls (handlerRun freshID req inner durNs).calls
      LogLevel.INFO "HTTP request completed" = 1 ∧
    ((handlerRun freshID req inner durNs).statusCode ≥ 500 →
       countCalls (handlerRun freshID req inner durNs).calls
         LogLevel.ERROR "HTTP request failed with server error" = 1 ∧
       countCalls (handlerRun freshID req inner durNs).calls
         LogLevel.WARN "HTTP request failed with client error" = 0) ∧
    (400 ≤ (handlerRun freshID req inner durNs).statusCode ∧
       (handlerRun freshID req inner durNs).statusCode ≤ 499 →
       countCalls (handlerRun freshID req inner durNs).calls
         LogLevel.WARN "HTTP request failed with client error" = 1 ∧
       countCalls (handlerRun freshID req inner durNs).calls
         LogLevel.ERROR "HTTP request failed with server error" = 0) ∧
    ((handlerRun freshID req inner durNs).statusCode < 400 →
       countCalls (handlerRun freshID req inner durNs).calls
         LogLevel.ERROR "HTTP request failed with server error" = 0 ∧
       countCalls (handlerRun freshID req inner durNs).calls
         LogLevel.WARN "HTTP request failed with client error" = 0) := by
  have hsc : (handlerRun freshID req inner durNs).statusCode
      = (rwRun newResponseWriter inner).statusCode := rfl
  have hcl : (handlerRun freshID req inner durNs).calls
      = handlerCalls freshID req inner durNs := rfl
  rw [hsc, hcl]
  refine ⟨?_, ?_, ?_, ?_⟩
  · by_cases hdur : durNs > 5000000000 <;>
      by_cases hs4 : (rwRun newResponseWriter inner).statusCode ≥ 400 <;>
        by_cases hs5 : (rwRun newResponseWriter inner).statusCode ≥ 500 <;>
          simp [handlerCalls, countCalls_append, countCalls, hdur, hs4, hs5,
                startedCall, completedCall, slowCall, statusClassCall]
  · intro h5
    have hs4 : (rwRun newResponseWriter inner).statusCode ≥ 400 := by omega
    by_cases hdur : durNs > 5000000000 <;>
      simp [handlerCalls, countCalls_append, countCalls, hdur, hs4, h5,
            startedCall, completedCall, slowCall, statusClassCall]
  · rintro ⟨h4a, h4b⟩
    have hs5 : ¬ (rwRun newResponseWriter inner).statusCode ≥ 500 := by omega
    by_cases hdur : durNs > 5000000000 <;>
      simp [handlerCalls, countCalls_append, countCalls, hdur, h4a, hs5,
            startedCall, completedCall, slowCall, statusClassCall]
  · intro hlow
    have hs4 : ¬ (rwRun newResponseWriter inner).statusCode ≥ 400 := by omega
    by_cases hdur : durNs > 5000000000 <;>
      simp [handlerCalls, countCalls_append, countCalls, hdur, hs4,
            startedCall, completedCall, slowCall, statusClassCall]

/-- Shared lemma: every call the Handler issues is one of the four named
calls. -/
theorem mem_handlerCalls {c : LogCall} (freshID : String) (req : HttpRequest)
    (inner : List RWOp) (durNs : Nat)
    (hc : c ∈ handlerCalls freshID req inner durNs) :
    c = startedCall freshID req ∨ c = completedCall freshID req inner durNs ∨
    c = slowCall freshID req durNs ∨ c = statusClassCall freshID req inner := by
  unfold handlerCalls at hc
  rcases List.mem_append.1 hc with h | h
  · rcases List.mem_append.1 h with h2 | h2
    · simp at h2
      tauto
    · split at h2 <;> simp at h2
      tauto
  · split at h <;> simp at h
    tauto

/-- Witness for C7: a 404 response yields one WARN client-error record, a
503 response one ERROR server-error record. -/
theorem C7_status_class_records_witness :
    countCalls (handlerRun "gen" sampleRequest [RWOp.writeHeader 404] 0).calls
      LogLevel.WARN "HTTP request failed with client error" = 1 ∧
    countCalls (handlerRun "gen" sampleRequest [RWOp.writeHeader 503] 0).calls
      LogLevel.ERROR "HTTP request failed with server error" = 1 :=
  ⟨((C7_status_class_records "gen" sampleRequest [RWOp.writeHeader 404] 0).2.2.1
      ⟨by decide, by decide⟩).1,
   ((C7_status_class_records "gen" sampleRequest [RWOp.writeHeader 503] 0).2.1
      (by decide)).1⟩

/-- C6: the Logging stage uses the inbound X-Request-ID verbatim when
non-empty and the freshly generated identifier otherwise (non-empty whenever
the generator's output is); the same single identifier is placed in the
outbound X-Request-ID response header, in the request's correlation scope,
and — both in the per-call field map and in the scope the record is logged
with — in the one "request started" and the one "request completed" record
(indeed in every call the stage issues). -/
theorem C6_request_id_propagation (freshID : String) (req : HttpRequest)
    (inner : List RWOp) (durNs : Nat) :
    (req.xRequestID ≠ "" →
       (handlerRun freshID req inner durNs).requestID = req.xRequestID) ∧
    (req.xRequestID = "" →
       (handlerRun freshID req inner durNs).requestID = freshID) ∧
    (freshID ≠ "" → (handlerRun freshID req inner durNs).requestID ≠ "") ∧
    (handlerRun freshID req inner durNs).responseXRequestID
      = (handlerRun freshID req inner durNs).requestID ∧
    GetRequestID (handlerRun freshID req inner durNs).innerCtx
      = (handlerRun freshID req inner durNs).requestID ∧
    countCalls (handlerRun freshID req inner durNs).calls
      LogLevel.INFO "HTTP request started" = 1 ∧
    countCalls (handlerRun freshID req inner durNs).calls
      LogLevel.INFO "HTTP request completed" = 1 ∧
    ∀ c ∈ (handlerRun freshID req inner durNs).calls,
      lookupGo c.fields "request_id"
        = some (GoValue.vStr (handlerRun freshID req inner durNs).requestID) ∧
      GetRequestID c.ctx = (handlerRun freshID req inner durNs).requestID := by
  have hrid : (handlerRun freshID req inner durNs).requestID
      = chosenRequestID freshID req := rfl
  have hcl : (handlerRun freshID req inner durNs).calls
      = handlerCalls freshID req inner durNs := rfl
  rw [hrid, hcl]
  refine ⟨?_, ?_, ?_, rfl, ?_, ?_, ?_, ?_⟩
  · intro hx
    unfold chosenRequestID
    rw [if_neg hx]
  · intro hx
    unfold chosenRequestID
    rw [if_pos hx]
  · intro hf
    unfold chosenRequestID
    by_cases hx : req.xRequestID = ""
    · rw [if_pos hx]; exact hf
    · rw [if_neg hx]; exact hx
  · show GetRequestID (handlerCtx freshID req) = chosenRequestID freshID req
    simp [handlerCtx, WithRequestID, GetRequestID, getFromContext]
  · by_cases hdur : durNs > 5000000000 <;>
      by_cases hs4 : (rwRun newResponseWriter inner).statusCode ≥ 400 <;>
        by_cases hs5 : (rwRun newResponseWriter inner).statusCode ≥ 500 <;>
          simp [handlerCalls, countCalls_append, countCalls, hdur, hs4, hs5,
                startedCall, completedCall, slowCall, statusClassCall]
  · by_cases hdur : durNs > 5000000000 <;>
      by_cases hs4 : (rwRun newResponseWriter inner).statusCode ≥ 400 <;>
        by_cases hs5 : (rwRun newResponseWriter inner).statusCode ≥ 500 <;>
          simp [handlerCalls, countCalls_append, countCalls, hdur, hs4, hs5,
                startedCall, completedCall, slowCall, statusClassCall]
  · intro c hc
    rcases mem_handlerCalls freshID req inner durNs hc with h | h | h | h <;> subst h <;>
      simp [startedCall, completedCall, slowCall, statusClassCall,
        lookupGo, handlerCtx, WithRequestID, GetRequestID, getFromContext]

/-- Witness for C6: the inbound header "existing-id" is reused verbatim;
without it the generated "gen" is used and is non-empty; the started
record's field map carries the chosen identifier. -/
theorem C6_request_id_propagation_witness :
    (handlerRun "gen" sampleRequest [] 0).requestID = "existing-id" ∧
    (handlerRun "gen" sampleRequestNoID [] 0).requestID = "gen" ∧
    (handlerRun "gen" sampleRequestNoID [] 0).requestID ≠ "" ∧
    lookupGo (startedCall "gen" sampleRequest).fields "request_id"
      = some (GoValue.vStr (handlerRun "gen" sampleRequest [] 0).requestID) :=
  ⟨(C6_request_id_propagation "gen" sampleRequest [] 0).1 (by decide),
   (C6_request_id_propagation "gen" sampleRequestNoID [] 0).2.1 (by decide),
   (C6_request_id_propagation "gen" sampleRequestNoID [] 0).2.2.1 (by decide),
   ((C6_request_id_propagation "gen" sampleRequest [] 0).2.2.2.2.2.2.2
      (startedCall "gen" sampleRequest)
      (List.mem_append_left _ (List.mem_append_left _ (List.mem_cons_self _ _)))).1⟩

end LogSys
